import Mathlib

/-!
Shallow embedding of the hybrid media-session discovery and ranking engine of
`src/utils/mediaUtils.ts` (a Raycast extension for Windows media control).

The heart of the detection logic lives in the PowerShell script
`GET_MEDIA_SESSION_SCRIPT` embedded in that file: an SMTC (native session
manager) adapter, a window-title adapter with per-application title patterns,
an additive scoring step, and a final `Sort-Object -Property Score -Descending
| Select-Object -First 1` selection.  The TypeScript wrapper
`getCurrentMediaSession` runs the script, parses its JSON output, and
post-processes it with `parseMediaInfo`, `getAppDisplayName` and
`determineSourceType`.  `getVolume` is a separate small PowerShell call.

Strings are modelled as Lean `String`s; every string operation used by the
code (`ToLower`, `Trim`, regex matching against the literal patterns of the
source, JS `includes` / `replace` / `trim` / `parseInt`) is given its own
executable definition on `List Char` so that proofs can proceed by structural
induction and concrete claims by `decide`.  PowerShell `-match` and `-eq` on
strings are case-insensitive, which is reflected by lowering both sides.
-/

/-- Lowercase every character (models .NET `ToLower` / JS `toLowerCase` on the
ASCII range used by the patterns in the source). -/
def lowerL (l : List Char) : List Char := l.map Char.toLower

/-- Lowercase a string. -/
def lowerS (s : String) : String := ⟨lowerL s.data⟩

/-- Trim whitespace from both ends (models .NET `Trim` / JS `trim`). -/
def trimL (l : List Char) : List Char :=
  ((l.dropWhile Char.isWhitespace).reverse.dropWhile Char.isWhitespace).reverse

/-- Trim a string. -/
def trimS (s : String) : String := ⟨trimL s.data⟩

/-- Does `pat` occur as a contiguous substring of the list?  Models JS
`String.includes` and an unanchored literal regex search. -/
def isSubL (pat : List Char) : List Char → Bool
  | [] => pat.isEmpty
  | c :: rest => pat.isPrefixOf (c :: rest) || isSubL pat rest

/-- Substring test on strings (case-sensitive). -/
def containsS (s pat : String) : Bool := isSubL pat.data s.data

/-- Case-insensitive substring test: models PowerShell `-match
[regex]::Escape(pat)` and JS `toLowerCase().includes(pat)`. -/
def containsCI (s pat : String) : Bool := isSubL (lowerL pat.data) (lowerL s.data)

/-- The suffix of `s` after the first occurrence of `pat`, if `pat` occurs. -/
def firstOccSuffix (pat : List Char) : List Char → Option (List Char)
  | [] => if pat.isEmpty then some [] else none
  | c :: rest =>
    if pat.isPrefixOf (c :: rest) then some ((c :: rest).drop pat.length)
    else firstOccSuffix pat rest

/-- Split `s` at the LAST occurrence of `pat` whose tail satisfies `p`:
returns `(a, b)` with `s = a ++ pat ++ b` and `p b = true`, for the greatest
possible `a`.  This mirrors how a greedy `(.+)` capture followed by the
literal `pat` backtracks from the right in the .NET regex engine. -/
def splitLastOccP (pat : List Char) (p : List Char → Bool) : List Char → Option (List Char × List Char)
  | [] => none
  | c :: rest =>
    match splitLastOccP pat p rest with
    | some (a, b) => some (c :: a, b)
    | none =>
      let b := (c :: rest).drop pat.length
      if pat.isPrefixOf (c :: rest) && p b then some ([], b) else none

/-- Remove the first occurrence of `pat` (models JS `String.replace(pat, "")`
with a plain-string pattern, which replaces only the first occurrence; the
string is unchanged when `pat` does not occur). -/
def removeFirstL (pat : List Char) : List Char → List Char
  | [] => []
  | c :: rest =>
    if pat.isPrefixOf (c :: rest) then (c :: rest).drop pat.length
    else c :: removeFirstL pat rest

/-- Models `'(?i)live|🔴'` — the live-content detector applied to candidate titles
in every scoring branch of `GET_MEDIA_SESSION_SCRIPT`. -/
def detectLive (s : String) : Bool :=
  isSubL "live".data (lowerL s.data) || isSubL ['🔴'] s.data

/-- Line 140 of the script: the foreground process name is captured already
lowercased (`.ProcessName.ToLower()`); `none` models the lookup failing. -/
def foregroundName (raw : Option String) : Option String := raw.map lowerS

/-- SMTC branch foreground bonus (script lines 206–210): `+12` when the
(nonempty) foreground process name occurs inside the lowercased
`SourceAppUserModelId`, via `-match [regex]::Escape($ForegroundProcessName)`. -/
def smtcFgBonus (appId : String) (fg : Option String) : Int :=
  match fg with
  | none => 0
  | some f => if f ≠ "" && containsS (lowerS appId) f then 12 else 0

/-- Window-loop foreground bonus (script line 229): `+12` only when the
lowercased process name is EQUAL to the foreground process name
(`$process.ProcessName.ToLower() -eq $ForegroundProcessName`). -/
def windowFgBonus (processName : String) (fg : Option String) : Int :=
  match fg with
  | none => 0
  | some f => if f ≠ "" && lowerS processName = f then 12 else 0

/-! ## Pattern registry (`$mediaApps`) and per-branch title grammars

The window loop hard-codes one playing-title regex per branch and looks up
`pausedPattern` in the `$mediaApps` table.  All `-match` comparisons are
case-insensitive, so matchers lower the title first; captures are taken from
the original string by length arithmetic (`lowerL` preserves length). -/

/-- Anchored `^(.+)SFX$` matcher for a fixed literal suffix `sfx` (given in
lowercase): returns the nonempty capture group from the original string. -/
def matchSuffixCapture (sfx : List Char) (t : String) : Option String :=
  if sfx.isSuffixOf (lowerL t.data) && decide (sfx.length < t.data.length)
  then some ⟨t.data.take (t.data.length - sfx.length)⟩ else none

/-- Models `'^(.+) - (.+)$'` (Spotify window branch, line 232): greedy first group
means the split happens at the LAST `" - "` that leaves a nonempty second
group; both groups must be nonempty. -/
def matchSpotifyTitle (t : String) : Option (String × String) :=
  match splitLastOccP " - ".data (fun b => !b.isEmpty) t.data with
  | some (a, b) => if a.isEmpty then none else some (⟨a⟩, ⟨b⟩)
  | none => none

/-- Models `'^(.+) - YouTube - Microsoft.*Edge$'` (line 317): greedy capture up to the
last `" - YouTube - Microsoft"` whose tail still ends in `"Edge"`. -/
def matchEdgeTitle (t : String) : Option String :=
  let lt := lowerL t.data
  match splitLastOccP " - youtube - microsoft".data
      (fun b => "edge".data.isSuffixOf b) lt with
  | some (a, _) => if a.isEmpty then none else some ⟨t.data.take a.length⟩
  | none => none

/-- Tail of the Zen pattern after the captured part and `" - YouTube "`:
`\s*[—–\-]\s*Zen( Browser)?$` (on the lowered title). -/
def zenTail (b : List Char) : Bool :=
  match b.dropWhile Char.isWhitespace with
  | d :: rest =>
    (d = '—' || d = '–' || d = '-') &&
      (let r := rest.dropWhile Char.isWhitespace
       r = "zen".data || r = "zen browser".data)
  | [] => false

/-- Models `'^(.+) - YouTube \s*[—–\-]\s*Zen( Browser)?$'` (line 373). -/
def matchZenTitle (t : String) : Option String :=
  let lt := lowerL t.data
  match splitLastOccP " - youtube ".data zenTail lt with
  | some (a, _) => if a.isEmpty then none else some ⟨t.data.take a.length⟩
  | none => none

/-- Models `'^Spotify( Premium| Free)?$'` — Spotify's `pausedPattern`. -/
def spotifyPausedB (lt : List Char) : Bool :=
  lt = "spotify".data || lt = "spotify premium".data || lt = "spotify free".data

/-- Models `'.*BRAND.*SFX$'` — the browser `pausedPattern` shape: the lowered title
ends in `sfx` and contains `brand` before that suffix. -/
def pausedBrowserB (brand sfx : List Char) (lt : List Char) : Bool :=
  sfx.isSuffixOf lt && isSubL brand (lt.take (lt.length - sfx.length))

/-- Models `'.*YouTube.*Microsoft.*Edge$'` — Edge's `pausedPattern`: `"youtube"`,
then `"microsoft"`, then anything, then `"edge"` at the end. -/
def msedgePausedB (lt : List Char) : Bool :=
  "edge".data.isSuffixOf lt &&
    (match firstOccSuffix "youtube".data (lt.take (lt.length - 4)) with
     | some suf => isSubL "microsoft".data suf
     | none => false)

/-- The `pausedPattern` column of `$mediaApps`, keyed by lowercased process
name (PowerShell hashtable lookups are case-insensitive).  The `vlc`,
`wmplayer` and `iTunes` rows exist in the table but no candidate branch
consumes them; they are included for completeness.  `zen` has no row. -/
def pausedPatternFor (pname : String) : Option (List Char → Bool) :=
  if pname = "spotify" then some spotifyPausedB
  else if pname = "chrome" then some (pausedBrowserB "youtube".data "google chrome".data)
  else if pname = "brave" then some (pausedBrowserB "youtube".data "brave".data)
  else if pname = "msedge" then some msedgePausedB
  else if pname = "firefox" then some (pausedBrowserB "youtube".data "mozilla firefox".data)
  else if pname = "vlc" then some (fun lt => lt = "vlc media player".data)
  else if pname = "wmplayer" then some (fun lt => lt = "windows media player".data)
  else if pname = "itunes" then some (fun lt => lt = "itunes".data)
  else none

/-- Lines 223–227: `$isPausedTitle` — does the window title match the
registry's `pausedPattern` for this process (false when no row exists)? -/
def isPausedTitle (pname : String) (title : String) : Bool :=
  match pausedPatternFor pname with
  | some f => f (lowerL title.data)
  | none => false

/-! ## Candidate records and the two adapters -/

/-- The `$sessionInfo` hashtable built by every branch of the script (the
fields `Duration`, `Position`, `Genre` are always `$null` and are omitted). -/
structure SessionInfo where
  Title : String
  Artist : String
  Album : Option String
  AppName : String
  IsPlaying : Bool
  CanPlay : Bool
  CanPause : Bool
  CanSkipNext : Bool
  CanSkipPrevious : Bool
  deriving Repr, DecidableEq

/-- One entry of `$candidates`: `@{ Score = ...; Session = ... }`. -/
structure Scored where
  Score : Int
  Session : SessionInfo
  deriving Repr, DecidableEq

/-- Raw data of one SMTC session as observed by the script: the
`SourceAppUserModelId`, the media properties (empty strings when the nested
`TryGetMediaPropertiesAsync` fetch fails or times out), whether
`PlaybackStatus` equals `Playing`, and whether processing this session raises
an exception (the per-session `try { ... } catch {}`). -/
structure SmtcSession where
  appId : String
  title : String
  artist : String
  album : String
  playing : Bool
  throws : Bool
  deriving Repr, DecidableEq

/-- One process with a main window title, as enumerated by `Get-Process`. -/
structure ProcWindow where
  processName : String
  mainWindowTitle : String
  deriving Repr, DecidableEq

/-- SMTC scoring (lines 202–211): base 80 for Spotify ids, 75 for browser
ids, 78 otherwise; +20 live bonus; + foreground bonus; −20 when not playing. -/
def smtcScore (isSpotify isBrowser live : Bool) (fgBonus : Int) (playing : Bool) : Int :=
  (if isSpotify then 80 else if isBrowser then 75 else 78) +
    (if live then 20 else 0) + fgBonus - (if playing then 0 else 20)

/-- Spotify window branch scoring (lines 252–256): base 80, +5 live, +fg,
−20 paused. -/
def spotifyWinScore (live : Bool) (fgBonus : Int) (playing : Bool) : Int :=
  80 + (if live then 5 else 0) + fgBonus - (if playing then 0 else 20)

/-- Brave window branch scoring (lines 280–284): base 90, +5 live. -/
def braveWinScore (live : Bool) (fgBonus : Int) (playing : Bool) : Int :=
  90 + (if live then 5 else 0) + fgBonus - (if playing then 0 else 20)

/-- Chrome window branch scoring (lines 308–312): base 90, +5 live. -/
def chromeWinScore (live : Bool) (fgBonus : Int) (playing : Bool) : Int :=
  90 + (if live then 5 else 0) + fgBonus - (if playing then 0 else 20)

/-- Edge window branch scoring (lines 336–340): base 90, +5 live. -/
def msedgeWinScore (live : Bool) (fgBonus : Int) (playing : Bool) : Int :=
  90 + (if live then 5 else 0) + fgBonus - (if playing then 0 else 20)

/-- Firefox window branch scoring (lines 364–368): base 75, +20 live. -/
def firefoxWinScore (live : Bool) (fgBonus : Int) (playing : Bool) : Int :=
  75 + (if live then 20 else 0) + fgBonus - (if playing then 0 else 20)

/-- Zen window branch scoring (lines 392–396): base 77, +20 live. -/
def zenWinScore (live : Bool) (fgBonus : Int) (playing : Bool) : Int :=
  77 + (if live then 20 else 0) + fgBonus - (if playing then 0 else 20)

/-- Line 184: `$appLower -match 'chrome|brave|edge|firefox|zen'` — the
browser-identity test on the lowercased `SourceAppUserModelId`. -/
def browserIdMatch (appLower : String) : Bool :=
  containsS appLower "chrome" || containsS appLower "brave" ||
    containsS appLower "edge" || containsS appLower "firefox" || containsS appLower "zen"

/-- Lines 167–214: process one SMTC session into a scored candidate.
Sessions that throw are skipped by the per-session `catch`; sessions whose
(trimmed) title is empty are skipped by `if (-not $titleSm) { continue }`. -/
def smtcCandidate (fg : Option String) (s : SmtcSession) : Option Scored :=
  if s.throws then none else
  let appId := trimS s.appId
  let titleSm := trimS s.title
  let artistSm := trimS s.artist
  let albumSm := trimS s.album
  if titleSm = "" then none else
  let appLower := lowerS appId
  let isBrowser := browserIdMatch appLower
  let isSpotify := containsS appLower "spotify"
  let artist :=
    if artistSm ≠ "" then artistSm
    else if isSpotify then "Spotify"
    else if isBrowser then "YouTube"
    else appId
  some {
    Score := smtcScore isSpotify isBrowser (detectLive titleSm) (smtcFgBonus appId fg) s.playing,
    Session := {
      Title := titleSm, Artist := artist,
      Album := if albumSm ≠ "" then some albumSm else none,
      AppName := appId, IsPlaying := s.playing,
      CanPlay := true, CanPause := true, CanSkipNext := true, CanSkipPrevious := true } }

/-- Lines 218–399: the window-title loop body for one process.  Each of the
six hard-coded branches contributes at most one candidate (the process-name
equality tests are mutually exclusive).  `IsPlaying` is `-not $isPausedTitle`.
Note the shipped script, unlike `test-actual-script.ps1`, has NO branch that
emits a placeholder "Media Paused" candidate on a paused-pattern match. -/
def windowCandidate (fg : Option String) (w : ProcWindow) : List Scored :=
  let pname := lowerS w.processName
  let t := w.mainWindowTitle
  let paused := isPausedTitle pname t
  let fgB := windowFgBonus w.processName fg
  let mk := fun (title artist : String) (playing : Bool) =>
    ({ Title := title, Artist := artist, Album := none, AppName := w.processName,
       IsPlaying := playing, CanPlay := true, CanPause := true,
       CanSkipNext := true, CanSkipPrevious := true } : SessionInfo)
  (if pname = "spotify" then
    match matchSpotifyTitle t with
    | some (artist, songTitle) =>
      [{ Score := spotifyWinScore (detectLive songTitle) fgB (!paused),
         Session := mk songTitle artist (!paused) }]
    | none => []
  else []) ++
  (if pname = "brave" then
    match matchSuffixCapture " - youtube - brave".data t with
    | some v =>
      [{ Score := braveWinScore (detectLive v) fgB (!paused), Session := mk v "YouTube" (!paused) }]
    | none => []
  else []) ++
  (if pname = "chrome" then
    match matchSuffixCapture " - youtube - google chrome".data t with
    | some v =>
      [{ Score := chromeWinScore (detectLive v) fgB (!paused), Session := mk v "YouTube" (!paused) }]
    | none => []
  else []) ++
  (if pname = "msedge" then
    match matchEdgeTitle t with
    | some v =>
      [{ Score := msedgeWinScore (detectLive v) fgB (!paused), Session := mk v "YouTube" (!paused) }]
    | none => []
  else []) ++
  (if pname = "firefox" then
    match matchSuffixCapture " - youtube - mozilla firefox".data t with
    | some v =>
      [{ Score := firefoxWinScore (detectLive v) fgB (!paused), Session := mk v "YouTube" (!paused) }]
    | none => []
  else []) ++
  (if pname = "zen" then
    match matchZenTitle t with
    | some v =>
      [{ Score := zenWinScore (detectLive v) fgB (!paused), Session := mk v "YouTube" (!paused) }]
    | none => []
  else [])

/-- Line 125 + the loop: only processes with a nonempty `MainWindowTitle`
are considered. -/
def windowCandidates (fg : Option String) (procs : List ProcWindow) : List Scored :=
  (procs.filter (fun w => w.mainWindowTitle ≠ "")).flatMap (windowCandidate fg)

/-- The whole environment one script run observes. -/
structure ScriptEnv where
  smtcAvailable : Bool
  smtcSessions : List SmtcSession
  windows : List ProcWindow
  fgRaw : Option String
  deriving Repr, DecidableEq

/-- The full `$candidates` array: SMTC candidates first (lines 162–216; an
unavailable or timed-out manager contributes nothing, guarded by the outer
`try {} catch {}`), then window-title candidates in process order. -/
def allCandidates (env : ScriptEnv) : List Scored :=
  let fg := foregroundName env.fgRaw
  (if env.smtcAvailable then env.smtcSessions.filterMap (smtcCandidate fg) else []) ++
    windowCandidates fg env.windows

/-- Lines 401–406: `Sort-Object -Property Score -Descending | Select-Object
-First 1` — selection is by Score ONLY.  Windows PowerShell 5.1's sort is not
stable, so among equal top scores the chosen element is unspecified; we model
"first maximal", and the claim theorems below avoid score ties. -/
def selectBest : List Scored → Option Scored
  | [] => none
  | c :: rest => some (rest.foldl (fun best x => if x.Score > best.Score then x else best) c)

/-- The script's stdout, as data: the winning `$sessionInfo` serialized to
JSON, or nothing (`Write-Output ""`) when no candidates were found. -/
def runScript (env : ScriptEnv) : Option SessionInfo :=
  (selectBest (allCandidates env)).map Scored.Session

/-! ## `parseMediaInfo` (TS lines 817–878) -/

/-- A character allowed inside a video id: `[a-zA-Z0-9_-]`. -/
def isTokChar (c : Char) : Bool := c.isAlpha || c.isDigit || c = '_' || c = '-'

/-- Try to match `\[([a-zA-Z0-9_-]{11})\]` at the head of the list; on success
return the 11-character token and the remainder after `]`: the head must be
`[`, the next 11 characters must exist and be id characters, and character 13
must be `]`.  (Stated with `take`/`drop` so the layout is one decidable
condition.) -/
def tryBracketHere (l : List Char) : Option (List Char × List Char) :=
  let tok := (l.drop 1).take 11
  if l.take 1 = ['['] ∧ tok.length = 11 ∧ tok.all isTokChar = true ∧ (l.drop 12).take 1 = [']']
  then some (tok, l.drop 13) else none

/-- Leftmost match of `\[([a-zA-Z0-9_-]{11})\]` (JS `String.match` finds the
first match): returns `(pre, tok, suf)` with the input equal to
`pre ++ '[' :: tok ++ ']' :: suf`. -/
def scanBracketTok : List Char → Option (List Char × List Char × List Char)
  | [] => none
  | c :: rest =>
    match tryBracketHere (c :: rest) with
    | some (tok, suf) => some ([], tok, suf)
    | none =>
      match scanBracketTok rest with
      | some (pre, tok, suf) => some (c :: pre, tok, suf)
      | none => none

/-- The attempt of `\s*([^-•]+)` right after a matched `"Playlist:"` literal:
`\s*` is greedy but gives one whitespace character back when the character
after the run is `-`/`•`/end-of-string, so the capture can be a single
whitespace character. -/
def playlistAttempt (afterColon : List Char) : Option (List Char) :=
  let w := afterColon.takeWhile Char.isWhitespace
  let r := afterColon.dropWhile Char.isWhitespace
  match r with
  | c :: _ =>
    if c ≠ '-' && c ≠ '•' then some (r.takeWhile (fun d => d ≠ '-' && d ≠ '•'))
    else match w.reverse with
      | wc :: _ => some [wc]
      | [] => none
  | [] =>
    match w.reverse with
    | wc :: _ => some [wc]
    | [] => none

/-- Leftmost match of `/Playlist:\s*([^-•]+)/`: scan for a `"Playlist:"`
occurrence whose tail accepts the rest of the pattern. -/
def playlistCapture : List Char → Option (List Char)
  | [] => none
  | c :: rest =>
    (if "Playlist:".data.isPrefixOf (c :: rest) then
      playlistAttempt ((c :: rest).drop 9)
    else none).orElse (fun _ => playlistCapture rest)

/-- The record returned by `parseMediaInfo`. -/
structure ParsedInfo where
  title : String
  artist : String
  channelName : Option String
  videoId : Option String
  isLive : Option Bool
  playlistName : Option String
  deriving Repr, DecidableEq

/-- TS lines 825–829: the `isYouTube` test of `parseMediaInfo` — is the app
identifier a recognized browser or YouTube app (case-insensitive substring)? -/
def isYouTubeApp (appName : String) : Bool :=
  containsS (lowerS appName) "chrome" || containsS (lowerS appName) "firefox" ||
    containsS (lowerS appName) "edge" || containsS (lowerS appName) "brave" ||
    containsS (lowerS appName) "youtube"

/-- TS `parseMediaInfo(title, artist, appName)`: for browser/YouTube app ids
with nonempty title and artist it derives channel, live flag, embedded
bracketed video id (stripped from the displayed title, which is then
trimmed), and playlist name; otherwise it only substitutes the
"Unknown Title"/"Unknown Artist" placeholders. -/
def parseMediaInfo (title artist appName : String) : ParsedInfo :=
  let isYouTube := isYouTubeApp appName
  if isYouTube && title ≠ "" && artist ≠ "" then
    let isLive := containsS (lowerS title) "live" || containsS (lowerS title) "🔴" ||
      containsS (lowerS artist) "live"
    let idAndTitle : Option String × String :=
      match scanBracketTok title.data with
      | some (_, tok, _) =>
        (some ⟨tok⟩, trimS ⟨removeFirstL ('[' :: (tok ++ [']'])) title.data⟩)
      | none => (none, title)
    let videoTitle := idAndTitle.2
    let playlistName : Option String :=
      if containsS title "Playlist:" || containsS artist "Playlist:" then
        (playlistCapture (title.data ++ (' ' :: artist.data))).map (fun cap => trimS ⟨cap⟩)
      else none
    let channelName : Option String :=
      if lowerS (trimS artist) = "youtube" then none else some artist
    { title := if videoTitle = "" then "Unknown Video" else videoTitle,
      artist := match channelName with | some c => c | none => "Unknown Channel",
      channelName := channelName, videoId := idAndTitle.1,
      isLive := some isLive, playlistName := playlistName }
  else
    { title := if title = "" then "Unknown Title" else title,
      artist := if artist = "" then "Unknown Artist" else artist,
      channelName := none, videoId := none, isLive := none, playlistName := none }

/-! ## `determineSourceType` (TS lines 883–929) -/

inductive SourceType where
  | music | video | podcast | unknown
  deriving Repr, DecidableEq

/-- Is `c` a regex word character (`[A-Za-z0-9_]`), for `\b` boundaries? -/
def isWordChar (c : Char) : Bool := c.isAlpha || c.isDigit || c = '_'

/-- Does `pat` occur with `\b` word boundaries on both sides?  `prev` is the
character immediately before the current scan position. -/
def wordOccAux (pat : List Char) (prev : Option Char) : List Char → Bool
  | [] => false
  | c :: rest =>
    (pat.isPrefixOf (c :: rest) &&
      (match prev with | some p => !isWordChar p | none => true) &&
      (match (c :: rest).drop pat.length with | [] => true | d :: _ => !isWordChar d)) ||
    wordOccAux pat (some c) rest

/-- Word-boundary regex test for a literal word pattern. -/
def wordOcc (pat s : List Char) : Bool := wordOccAux pat none s

/-- TS `determineSourceType(appName, title, artist)`. -/
def determineSourceType (appName title artist : String) : SourceType :=
  let lowerAppName := lowerS appName
  let lowerTitle := lowerS title
  let lowerArtist := lowerS artist
  let looksLikeYouTube := containsS lowerTitle " - youtube - " || lowerArtist = "youtube" ||
    wordOcc "youtube".data lowerTitle.data
  let isBrowser := containsS lowerAppName "chrome" || containsS lowerAppName "brave" ||
    containsS lowerAppName "edge" || containsS lowerAppName "firefox" ||
    containsS lowerAppName "zen" || containsS lowerAppName "vivaldi" ||
    containsS lowerAppName "opera"
  if looksLikeYouTube || containsS lowerAppName "youtube" || containsS lowerAppName "netflix" ||
      containsS lowerAppName "disney" || containsS lowerAppName "prime" ||
      containsS lowerAppName "hulu" || containsS lowerAppName "vlc" ||
      (isBrowser && looksLikeYouTube) ||
      containsS lowerTitle "watch" || containsS lowerTitle "video" then .video
  else if containsS lowerTitle "podcast" || containsS lowerArtist "podcast" ||
      containsS lowerTitle "episode" || containsS lowerAppName "podcast" then .podcast
  else if containsS lowerAppName "spotify" || containsS lowerAppName "apple music" ||
      containsS lowerAppName "itunes" || containsS lowerAppName "amazon music" ||
      containsS lowerAppName "deezer" || containsS lowerAppName "tidal" ||
      containsS lowerAppName "soundcloud" || containsS lowerAppName "foobar" ||
      containsS lowerAppName "winamp" || containsS lowerAppName "musicbee" then .music
  else .unknown

/-! ## `getAppDisplayName` (TS lines 733–812) -/

/-- The `appMappings` object, in source order (JS property lookup is exact and
case-sensitive). -/
def appMappings : List (String × String) := [
  ("Spotify.exe", "Spotify"), ("iTunes.exe", "iTunes"), ("foobar2000.exe", "foobar2000"),
  ("winamp.exe", "Winamp"), ("AIMP.exe", "AIMP"), ("MusicBee.exe", "MusicBee"),
  ("AppleMusic.exe", "Apple Music"), ("AmazonMusic.exe", "Amazon Music"),
  ("Deezer.exe", "Deezer"), ("Tidal.exe", "Tidal"), ("YouTubeMusic.exe", "YouTube Music"),
  ("SoundCloud.exe", "SoundCloud"),
  ("chrome.exe", "Chrome"), ("firefox.exe", "Firefox"), ("msedge.exe", "Edge"),
  ("brave.exe", "Brave"), ("opera.exe", "Opera"), ("vivaldi.exe", "Vivaldi"),
  ("vlc.exe", "VLC Media Player"), ("wmplayer.exe", "Windows Media Player"),
  ("mpc-hc64.exe", "MPC-HC"), ("mpc-be64.exe", "MPC-BE"),
  ("PotPlayerMini64.exe", "PotPlayer"), ("mpv.exe", "mpv"),
  ("Netflix.exe", "Netflix"), ("DisneyPlus.exe", "Disney+"), ("PrimeVideo.exe", "Prime Video"),
  ("Hulu.exe", "Hulu"), ("Twitch.exe", "Twitch"), ("Discord.exe", "Discord"),
  ("Steam.exe", "Steam"), ("TeamSpeak3.exe", "TeamSpeak"), ("Skype.exe", "Skype"),
  ("Zoom.exe", "Zoom")]

/-- The `storeAppMappings` object, iterated in source order with a
`packageName.includes(key)` test. -/
def storeAppMappings : List (String × String) := [
  ("SpotifyAB.SpotifyMusic", "Spotify"), ("Microsoft.ZuneMusic", "Groove Music"),
  ("Microsoft.ZuneVideo", "Movies & TV"), ("Netflix.Netflix", "Netflix"),
  ("5319275A.WhatsAppDesktop", "WhatsApp"), ("Microsoft.SkypeApp", "Skype"),
  ("DiscordInc.Discord", "Discord"), ("TelegramMessengerLLP.TelegramDesktop", "Telegram"),
  ("AppleInc.iTunes", "iTunes"), ("Microsoft.MSPaint", "Paint"),
  ("Microsoft.WindowsCalculator", "Calculator")]

/-- JS `s.split(sep).pop()`: the (possibly empty) segment after the last
occurrence of the separator, or the whole string when it does not occur. -/
def lastSegAfter (sep : Char) (s : List Char) : List Char :=
  match splitLastOccP [sep] (fun _ => true) s with
  | some (_, b) => b
  | none => s

/-- Models `appModelId.split("\\").pop() || appModelId.split("!").pop() || appModelId`. -/
def execNameOf (appModelId : String) : String :=
  let e1 := lastSegAfter '\\' appModelId.data
  if e1 ≠ [] then ⟨e1⟩ else
  let e2 := lastSegAfter '!' appModelId.data
  if e2 ≠ [] then ⟨e2⟩ else appModelId

/-- TS `getAppDisplayName(appModelId)`. -/
def getAppDisplayName (appModelId : String) : String :=
  if appModelId = "" then "Unknown App" else
  let storeHit : Option String :=
    if containsS appModelId "!" then
      let packageName : String := ⟨appModelId.data.takeWhile (fun c => c ≠ '!')⟩
      (storeAppMappings.find? (fun kv => containsS packageName kv.1)).map Prod.snd
    else none
  match storeHit with
  | some v => v
  | none =>
    let execName := execNameOf appModelId
    match List.lookup execName appMappings with
    | some v => v
    | none =>
      ⟨(removeFirstL ".exe".data execName.data).map
        (fun c => if c = '.' || c = '_' || c = '-' then ' ' else c)⟩

/-! ## `getCurrentMediaSession` (TS lines 415–464) -/

/-- The public `MediaSession` shape.  `duration`, `position`, `thumbnail`,
`genre`, `year` and `processId` are always `null`/`undefined` at the single
construction site (the script emits `$null` for them) and are omitted. -/
structure MediaSession where
  title : String
  artist : String
  album : Option String
  appName : String
  appDisplayName : String
  sourceType : SourceType
  isPlaying : Bool
  canPlay : Bool
  canPause : Bool
  canSkipNext : Bool
  canSkipPrevious : Bool
  channelName : Option String
  videoId : Option String
  isLive : Option Bool
  playlistName : Option String
  deriving Repr, DecidableEq

/-- Lines 429–452: build the returned `MediaSession` from the script's JSON
payload.  `sourceType` is computed from the RAW title/artist, while the
displayed `title`/`artist` come from `parseMediaInfo`. -/
def mkMediaSession (s : SessionInfo) : MediaSession :=
  let mediaInfo := parseMediaInfo s.Title s.Artist s.AppName
  { title := mediaInfo.title, artist := mediaInfo.artist, album := s.Album,
    appName := s.AppName, appDisplayName := getAppDisplayName s.AppName,
    sourceType := determineSourceType s.AppName s.Title s.Artist,
    isPlaying := s.IsPlaying, canPlay := s.CanPlay, canPause := s.CanPause,
    canSkipNext := s.CanSkipNext, canSkipPrevious := s.CanSkipPrevious,
    channelName := mediaInfo.channelName, videoId := mediaInfo.videoId,
    isLive := mediaInfo.isLive, playlistName := mediaInfo.playlistName }

/-- What one invocation of `getCurrentMediaSession` can observe: either the
`execAsync`/`JSON.parse` path throws, or the script ran against some
environment (its stdout is then `runScript env`, empty stdout meaning "no
candidates"). -/
inductive ExecResult where
  | fails
  | ok (env : ScriptEnv)
  deriving Repr

/-- The body of the `try` block: a throwing exec/parse is an `Except.error`;
otherwise the parsed session (or `none` for empty stdout) post-processed by
`mkMediaSession`. -/
def detectPipeline : ExecResult → Except String (Option MediaSession)
  | .fails => .error "media session detection failed"
  | .ok env => .ok ((runScript env).map mkMediaSession)

/-- The function `getCurrentMediaSession` with its try/catch/return-null
structure made explicit: the catch converts every internal failure into the
normal `none` result, so the caller can never observe an exception. -/
def getCurrentMediaSessionE (r : ExecResult) : Except String (Option MediaSession) :=
  match detectPipeline r with
  | .ok v => .ok v
  | .error _ => .ok none

/-! ## `getVolume` (TS lines 657–691) -/

/-- Hexadecimal digit value, as accepted by JS `parseInt` in base 16. -/
def hexDigitVal (c : Char) : Option Nat :=
  if c.isDigit then some (c.toNat - 48)
  else if 'a' ≤ c && c ≤ 'f' then some (c.toNat - 87)
  else if 'A' ≤ c && c ≤ 'F' then some (c.toNat - 55)
  else none

/-- Decimal digit value. -/
def decDigitVal (c : Char) : Option Nat :=
  if c.isDigit then some (c.toNat - 48) else none

/-- JS `parseInt(s)` (radix argument omitted): skip leading whitespace, an
optional sign, an optional `0x`/`0X` hex prefix, then read the longest prefix
of digits; `NaN` (here `none`) when there are no digits. -/
def jsParseInt (s : String) : Option Int :=
  let l := s.data.dropWhile Char.isWhitespace
  let signAndRest : Int × List Char :=
    match l with
    | '-' :: r => (-1, r)
    | '+' :: r => (1, r)
    | _ => (1, l)
  let afterHex : (Char → Option Nat) × Nat × List Char :=
    match signAndRest.2 with
    | '0' :: 'x' :: r => (hexDigitVal, 16, r)
    | '0' :: 'X' :: r => (hexDigitVal, 16, r)
    | _ => (decDigitVal, 10, signAndRest.2)
  let dv := afterHex.1
  let ds := afterHex.2.2.takeWhile (fun c => (dv c).isSome)
  if ds.isEmpty then none
  else some (signAndRest.1 * (ds.foldl (fun a c => a * afterHex.2.1 + (dv c).getD 0) 0))

/-- TS `getVolume()`: `none` input models a rejected `execAsync`; otherwise
the PowerShell stdout.  The declared return type is `Promise<number | null>`,
hence the `Option Int` codomain — but the body only ever resolves to numbers:
`parseInt` failure and exceptions both fall back to 50, and parsed values are
clamped into `[0, 100]`. -/
def getVolume : Option String → Option Int
  | none => some 50
  | some stdout =>
    match jsParseInt (trimS stdout) with
    | none => some 50
    | some v => some (max 0 (min 100 v))

/-! ## Basic lemmas about the string model -/

theorem mkStr_ne_empty {l : List Char} (h : l ≠ []) : (⟨l⟩ : String) ≠ "" :=
  fun he => h (congrArg String.data he)

theorem data_mkStr (l : List Char) : (⟨l⟩ : String).data = l := rfl

theorem lowerS_eq_empty_iff (s : String) : lowerS s = "" ↔ s = "" := by
  constructor
  · intro h
    have hd : s.data.map Char.toLower = [] := congrArg String.data h
    have : s.data = [] := List.map_eq_nil_iff.mp hd
    cases s; simp_all
  · intro h; rw [h]; rfl

theorem splitLastOccP_pred (pat : List Char) (p : List Char → Bool) :
    ∀ l a b, splitLastOccP pat p l = some (a, b) → p b = true := by
  intro l
  induction l with
  | nil => intro a b h; simp [splitLastOccP] at h
  | cons c rest ih =>
    intro a b h
    simp only [splitLastOccP] at h
    split at h
    · rename_i a' b' heq
      injection h with h'
      injection h' with h1 h2
      exact h2 ▸ ih a' b' heq
    · split at h
      · rename_i hcond
        injection h with h'
        injection h' with h1 h2
        exact h2 ▸ (Bool.and_eq_true _ _ |>.mp hcond).2
      · cases h

theorem splitLastOccP_append (pat : List Char) (p : List Char → Bool) :
    ∀ l a b, splitLastOccP pat p l = some (a, b) → l = a ++ pat ++ b := by
  intro l
  induction l with
  | nil => intro a b h; simp [splitLastOccP] at h
  | cons c rest ih =>
    intro a b h
    simp only [splitLastOccP] at h
    split at h
    · rename_i a' b' heq
      injection h with h'
      injection h' with h1 h2
      rw [← h1, ← h2]
      have hr := ih a' b' heq
      simp [hr]
    · split at h
      · rename_i hcond
        injection h with h'
        injection h' with h1 h2
        rw [← h1, ← h2]
        have hpre : pat <+: c :: rest :=
          List.isPrefixOf_iff_prefix.mp (Bool.and_eq_true _ _ |>.mp hcond).1
        obtain ⟨t, ht⟩ := hpre
        simp only [List.nil_append]
        rw [← ht, List.drop_left]
      · cases h

theorem matchSuffixCapture_ne (sfx : List Char) (t v : String)
    (h : matchSuffixCapture sfx t = some v) : v ≠ "" := by
  unfold matchSuffixCapture at h
  split at h
  · rename_i hcond
    injection h with h'
    rw [← h']
    apply mkStr_ne_empty
    have hlt : sfx.length < t.data.length :=
      of_decide_eq_true (Bool.and_eq_true _ _ |>.mp hcond).2
    intro hnil
    have hlen : (t.data.take (t.data.length - sfx.length)).length = t.data.length - sfx.length := by
      rw [List.length_take]; omega
    rw [hnil] at hlen
    simp only [List.length_nil] at hlen
    omega
  · cases h

theorem matchSpotifyTitle_ne (t ar ti : String)
    (h : matchSpotifyTitle t = some (ar, ti)) : ar ≠ "" ∧ ti ≠ "" := by
  unfold matchSpotifyTitle at h
  split at h
  · rename_i a b heq
    split at h
    · cases h
    · rename_i hA
      injection h with h'
      injection h' with h1 h2
      constructor
      · rw [← h1]
        apply mkStr_ne_empty
        simpa using hA
      · rw [← h2]
        apply mkStr_ne_empty
        have hb := splitLastOccP_pred _ _ _ _ _ heq
        simpa using hb
  · cases h

theorem matchEdgeTitle_ne (t v : String) (h : matchEdgeTitle t = some v) : v ≠ "" := by
  simp only [matchEdgeTitle] at h
  split at h
  · rename_i a b heq
    split at h
    · cases h
    · rename_i hA
      injection h with h'
      rw [← h']
      apply mkStr_ne_empty
      have happ := splitLastOccP_append _ _ _ _ _ heq
      have hlen : (lowerL t.data).length = t.data.length := by simp [lowerL]
      have halen : a.length ≤ t.data.length := by
        rw [← hlen, happ]; simp
      have hA' : a ≠ [] := by simpa using hA
      intro hnil
      have htk : (t.data.take a.length).length = a.length := by
        rw [List.length_take]; omega
      rw [hnil] at htk
      simp only [List.length_nil] at htk
      exact hA' (List.length_eq_zero.mp htk.symm)
  · cases h

theorem matchZenTitle_ne (t v : String) (h : matchZenTitle t = some v) : v ≠ "" := by
  simp only [matchZenTitle] at h
  split at h
  · rename_i a b heq
    split at h
    · cases h
    · rename_i hA
      injection h with h'
      rw [← h']
      apply mkStr_ne_empty
      have happ := splitLastOccP_append _ _ _ _ _ heq
      have hlen : (lowerL t.data).length = t.data.length := by simp [lowerL]
      have halen : a.length ≤ t.data.length := by
        rw [← hlen, happ]; simp
      have hA' : a ≠ [] := by simpa using hA
      intro hnil
      have htk : (t.data.take a.length).length = a.length := by
        rw [List.length_take]; omega
      rw [hnil] at htk
      simp only [List.length_nil] at htk
      exact hA' (List.length_eq_zero.mp htk.symm)
  · cases h

theorem smtcCandidate_title_ne (fg : Option String) (s : SmtcSession) (c : Scored)
    (h : smtcCandidate fg s = some c) : c.Session.Title ≠ "" := by
  simp only [smtcCandidate] at h
  split at h
  · cases h
  · split at h
    · cases h
    · rename_i hne
      injection h with h'
      rw [← h']
      simpa using hne

theorem windowCandidate_title_ne (fg : Option String) (w : ProcWindow) :
    ∀ c ∈ windowCandidate fg w, c.Session.Title ≠ "" := by
  intro c hc
  simp only [windowCandidate, List.mem_append] at hc
  rcases hc with ((((hc | hc) | hc) | hc) | hc) | hc
  · split at hc
    · split at hc
      · rename_i ar ti heq
        rw [List.mem_singleton] at hc
        subst hc
        exact (matchSpotifyTitle_ne _ _ _ heq).2
      · simp at hc
    · simp at hc
  · split at hc
    · split at hc
      · rename_i v heq
        rw [List.mem_singleton] at hc
        subst hc
        exact matchSuffixCapture_ne _ _ _ heq
      · simp at hc
    · simp at hc
  · split at hc
    · split at hc
      · rename_i v heq
        rw [List.mem_singleton] at hc
        subst hc
        exact matchSuffixCapture_ne _ _ _ heq
      · simp at hc
    · simp at hc
  · split at hc
    · split at hc
      · rename_i v heq
        rw [List.mem_singleton] at hc
        subst hc
        exact matchEdgeTitle_ne _ _ heq
      · simp at hc
    · simp at hc
  · split at hc
    · split at hc
      · rename_i v heq
        rw [List.mem_singleton] at hc
        subst hc
        exact matchSuffixCapture_ne _ _ _ heq
      · simp at hc
    · simp at hc
  · split at hc
    · split at hc
      · rename_i v heq
        rw [List.mem_singleton] at hc
        subst hc
        exact matchZenTitle_ne _ _ heq
      · simp at hc
    · simp at hc

/-! ## Claim theorems -/

/-- C5: every Candidate that reaches the scoring/selection step has a
non-empty title: SMTC sessions with failed metadata fetches or empty titles
are skipped (`if (-not $titleSm) { continue }`), windows with empty titles
are filtered out, and every window-branch regex capture is nonempty — so no
empty-titled candidate is ever scored, for ANY environment. -/
theorem C5_candidate_title_nonempty (env : ScriptEnv) :
    (allCandidates env).all (fun c => c.Session.Title ≠ "") = true := by
  rw [List.all_eq_true]
  intro c hc
  simp only [decide_eq_true_eq]
  simp only [allCandidates, List.mem_append] at hc
  rcases hc with hc | hc
  · split at hc
    · obtain ⟨s, _, hsc⟩ := List.mem_filterMap.mp hc
      exact smtcCandidate_title_ne _ _ _ hsc
    · simp at hc
  · simp only [windowCandidates, List.mem_flatMap] at hc
    obtain ⟨w, _, hcw⟩ := hc
    exact windowCandidate_title_ne _ _ _ hcw

/-- C1: the claim says selection orders primarily by `isPlaying` descending.
The shipped script instead sorts by `Score` alone (lines 401–406): with a
playing Spotify SMTC session (score 80) and a paused foreground Chrome
YouTube window (score 90 + 12 − 20 = 82), the paused candidate wins even
though a playing one exists.  (The repo's own `test-actual-script.ps1` sorts
by `IsPlaying` first, and the README promises Spotify wins this situation.) -/
theorem C1_score_only_selection_counterexample :
    (allCandidates ⟨true, [⟨"Spotify.exe", "Song", "", "", true, false⟩],
        [⟨"chrome", "Video - YouTube - Google Chrome"⟩], some "chrome"⟩).map
      (fun c => (c.Session.IsPlaying, c.Score)) = [(true, 80), (false, 82)] ∧
    (runScript ⟨true, [⟨"Spotify.exe", "Song", "", "", true, false⟩],
        [⟨"chrome", "Video - YouTube - Google Chrome"⟩], some "chrome"⟩).map
      SessionInfo.IsPlaying = some false := by decide

/-- C2 counterexample: in the Chrome window branch the live bonus is +5, not
+20 — a live title scores 75 where a non-live one scores 70, and a +20 bonus
would have produced 90. -/
theorem C2_live_bonus_counterexample :
    (windowCandidate none ⟨"chrome", "LIVE Show - YouTube - Google Chrome"⟩).map
      Scored.Score = [75] ∧
    (windowCandidate none ⟨"chrome", "Show - YouTube - Google Chrome"⟩).map
      Scored.Score = [70] ∧
    detectLive "LIVE Show" = true ∧ ((75 : Int) - 70 ≠ 20) := by decide

/-- C2 amended: the live-title bonus is +20 only in the SMTC adapter and the
Firefox and Zen window branches; the Spotify, Brave, Chrome and Edge window
branches add +5, whatever the foreground bonus and play state. -/
theorem C2_live_bonus_by_branch (isSpotify isBrowser : Bool) (fgB : Int) (playing : Bool) :
    smtcScore isSpotify isBrowser true fgB playing -
      smtcScore isSpotify isBrowser false fgB playing = 20 ∧
    firefoxWinScore true fgB playing - firefoxWinScore false fgB playing = 20 ∧
    zenWinScore true fgB playing - zenWinScore false fgB playing = 20 ∧
    spotifyWinScore true fgB playing - spotifyWinScore false fgB playing = 5 ∧
    braveWinScore true fgB playing - braveWinScore false fgB playing = 5 ∧
    chromeWinScore true fgB playing - chromeWinScore false fgB playing = 5 ∧
    msedgeWinScore true fgB playing - msedgeWinScore false fgB playing = 5 := by
  cases isSpotify <;> cases isBrowser <;> cases playing <;>
    simp [smtcScore, firefoxWinScore, zenWinScore, spotifyWinScore, braveWinScore,
      chromeWinScore, msedgeWinScore]

/-- C3 counterexample: for the window adapter the foreground test is exact
process-name equality, not a substring test — a foreground process "edge"
is a substring of the candidate process "msedge", yet the msedge window
candidate gets no +12 (score 70 = 90 − 20, not 82). -/
theorem C3_fg_bonus_counterexample :
    (windowCandidate (foregroundName (some "edge")) ⟨"msedge", "V - YouTube - Microsoft Edge"⟩).map
      Scored.Score = [70] ∧
    windowFgBonus "msedge" (foregroundName (some "edge")) = 0 ∧
    containsS (lowerS "msedge") (lowerS "edge") = true := by decide

/-- C4: the claim (and `test-actual-script.ps1`, and spec §4.3) says an
idle-pattern window emits a placeholder "paused" Candidate.  The shipped
script's window loop has no such branch: a Spotify window titled
"Spotify Premium" matches the paused pattern yet yields NO candidate at all. -/
theorem C4_no_idle_candidate_emitted :
    windowCandidate none ⟨"Spotify", "Spotify Premium"⟩ = [] ∧
    isPausedTitle (lowerS "Spotify") "Spotify Premium" = true := by decide

/-- C3 amended: with a nonempty foreground process name, the +12 bonus is
equivalent to a case-insensitive SUBSTRING match for SMTC candidates, but to
case-insensitive process-name EQUALITY for window-title candidates. -/
theorem C3_fg_bonus_amended (appId pname f : String) (hf : f ≠ "") :
    (smtcFgBonus appId (foregroundName (some f)) = 12 ↔
      containsS (lowerS appId) (lowerS f) = true) ∧
    (windowFgBonus pname (foregroundName (some f)) = 12 ↔ lowerS pname = lowerS f) := by
  have hf' : lowerS f ≠ "" := fun he => hf ((lowerS_eq_empty_iff f).mp he)
  constructor
  · by_cases hc : containsS (lowerS appId) (lowerS f) = true
    · simp [smtcFgBonus, foregroundName, hf', hc]
    · simp only [Bool.not_eq_true] at hc
      simp [smtcFgBonus, foregroundName, hf', hc]
  · by_cases he : lowerS pname = lowerS f
    · simp [windowFgBonus, foregroundName, hf', he]
    · simp [windowFgBonus, foregroundName, hf', he]

/-- Witness for `C3_fg_bonus_amended` at concrete inputs. -/
theorem C3_fg_bonus_amended_witness :
    (smtcFgBonus "Spotify.exe" (foregroundName (some "Spotify")) = 12 ↔
      containsS (lowerS "Spotify.exe") (lowerS "Spotify") = true) ∧
    (windowFgBonus "chrome" (foregroundName (some "Chrome")) = 12 ↔
      lowerS "chrome" = lowerS "Chrome") :=
  ⟨(C3_fg_bonus_amended "Spotify.exe" "x" "Spotify" (by decide)).1,
   (C3_fg_bonus_amended "y" "chrome" "Chrome" (by decide)).2⟩

/-- C7: discovery never raises to the caller.  `getCurrentMediaSession`
always resolves (to a session or to `null`): internal failures are caught
and become `null`, and an empty candidate set is the normal `null` outcome. -/
theorem C7_discovery_never_throws (r : ExecResult) :
    (∃ v, getCurrentMediaSessionE r = .ok v) ∧
    getCurrentMediaSessionE .fails = .ok none ∧
    (∀ env, r = .ok env → allCandidates env = [] → getCurrentMediaSessionE r = .ok none) := by
  refine ⟨?_, rfl, ?_⟩
  · cases r with
    | fails => exact ⟨none, rfl⟩
    | ok env => exact ⟨(runScript env).map mkMediaSession, rfl⟩
  · intro env hr hc
    subst hr
    simp [getCurrentMediaSessionE, detectPipeline, runScript, hc, selectBest]

/-- Witness for `C7_discovery_never_throws`: an empty environment yields the
`null` sentinel, and the throwing path also resolves. -/
theorem C7_discovery_never_throws_witness :
    getCurrentMediaSessionE (.ok ⟨true, [], [], none⟩) = .ok none ∧
    (∃ v, getCurrentMediaSessionE .fails = .ok v) :=
  ⟨(C7_discovery_never_throws (.ok ⟨true, [], [], none⟩)).2.2 _ rfl (by decide),
   (C7_discovery_never_throws .fails).1⟩

/-- C9: `getVolume` never resolves to `null` despite its `number | null`
type: every outcome is `some` of an integer in [0, 100], and both the
exec-failure path and the parse-failure path yield 50. -/
theorem C9_getVolume_total_bounded (e : Option String) :
    (∃ v, getVolume e = some v ∧ 0 ≤ v ∧ v ≤ 100) ∧
    getVolume none = some 50 ∧
    (∀ s, e = some s → jsParseInt (trimS s) = none → getVolume e = some 50) := by
  refine ⟨?_, rfl, ?_⟩
  · cases e with
    | none => exact ⟨50, rfl, by norm_num, by norm_num⟩
    | some out =>
      cases hp : jsParseInt (trimS out) with
      | none => exact ⟨50, by simp [getVolume, hp], by norm_num, by norm_num⟩
      | some v =>
        refine ⟨max 0 (min 100 v), by simp [getVolume, hp], le_max_left 0 _, ?_⟩
        omega
  · intro s he hp
    subst he
    simp [getVolume, hp]

/-- Witness for `C9_getVolume_total_bounded` at a concrete output. -/
theorem C9_getVolume_total_bounded_witness :
    (∃ v, getVolume (some "150") = some v ∧ 0 ≤ v ∧ v ≤ 100) ∧
    getVolume (some "garbage") = some 50 :=
  ⟨(C9_getVolume_total_bounded (some "150")).1,
   (C9_getVolume_total_bounded (some "garbage")).2.2 "garbage" rfl (by decide)⟩

/-- C8: an SMTC session whose app id matches "spotify" and whose artist is
empty gets artist "Spotify" and (playing, no live/foreground bonus) score
exactly the base 80, and is the selected winner when it is the only
candidate; a browser-id session with empty artist gets artist "YouTube". -/
theorem C8_artist_normalization_and_base_score
    (s t : SmtcSession) (raw : Option String)
    (hthrow : s.throws = false)
    (hspot : containsS (lowerS (trimS s.appId)) "spotify" = true)
    (hartist : trimS s.artist = "")
    (htitle : trimS s.title ≠ "")
    (hlive : detectLive (trimS s.title) = false)
    (hplay : s.playing = true)
    (hfg : smtcFgBonus (trimS s.appId) (foregroundName raw) = 0)
    (hthrow2 : t.throws = false)
    (htitle2 : trimS t.title ≠ "")
    (hartist2 : trimS t.artist = "")
    (hbrowser2 : browserIdMatch (lowerS (trimS t.appId)) = true)
    (hnospot2 : containsS (lowerS (trimS t.appId)) "spotify" = false) :
    (∃ c, smtcCandidate (foregroundName raw) s = some c ∧
      c.Session.Artist = "Spotify" ∧ c.Score = 80 ∧ c.Session.IsPlaying = true ∧
      runScript ⟨true, [s], [], raw⟩ = some c.Session) ∧
    (∃ c2, smtcCandidate (foregroundName raw) t = some c2 ∧
      c2.Session.Artist = "YouTube") := by
  have hs : smtcCandidate (foregroundName raw) s = some {
      Score := 80,
      Session := {
        Title := trimS s.title, Artist := "Spotify",
        Album := (if trimS s.album ≠ "" then some (trimS s.album) else none),
        AppName := trimS s.appId, IsPlaying := true,
        CanPlay := true, CanPause := true, CanSkipNext := true, CanSkipPrevious := true } } := by
    simp [smtcCandidate, hthrow, htitle, hplay, hartist, hspot, hlive, hfg, smtcScore]
  have ht : smtcCandidate (foregroundName raw) t = some {
      Score := smtcScore false (browserIdMatch (lowerS (trimS t.appId)))
        (detectLive (trimS t.title)) (smtcFgBonus (trimS t.appId) (foregroundName raw)) t.playing,
      Session := {
        Title := trimS t.title, Artist := "YouTube",
        Album := (if trimS t.album ≠ "" then some (trimS t.album) else none),
        AppName := trimS t.appId, IsPlaying := t.playing,
        CanPlay := true, CanPause := true, CanSkipNext := true, CanSkipPrevious := true } } := by
    simp [smtcCandidate, hthrow2, htitle2, hartist2, hbrowser2, hnospot2]
  refine ⟨⟨_, hs, rfl, rfl, rfl, ?_⟩, ⟨_, ht, rfl⟩⟩
  simp [runScript, allCandidates, windowCandidates, hs, selectBest]

/-- Witness for `C8_artist_normalization_and_base_score`: a concrete Spotify
SMTC session and a concrete Chrome SMTC session with empty artists. -/
theorem C8_artist_normalization_witness :
    (∃ c, smtcCandidate (foregroundName none) ⟨"Spotify.exe", "Song", "", "", true, false⟩ = some c ∧
      c.Session.Artist = "Spotify" ∧ c.Score = 80 ∧ c.Session.IsPlaying = true ∧
      runScript ⟨true, [⟨"Spotify.exe", "Song", "", "", true, false⟩], [], none⟩ = some c.Session) ∧
    (∃ c2, smtcCandidate (foregroundName none) ⟨"chrome.exe", "Video", "", "", true, false⟩ = some c2 ∧
      c2.Session.Artist = "YouTube") :=
  C8_artist_normalization_and_base_score
    ⟨"Spotify.exe", "Song", "", "", true, false⟩ ⟨"chrome.exe", "Video", "", "", true, false⟩ none
    (by decide) (by decide) (by decide) (by decide) (by decide) (by decide) (by decide)
    (by decide) (by decide) (by decide) (by decide) (by decide)

theorem strIte_ne_empty (s d : String) (hd : d ≠ "") : (if s = "" then d else s) ≠ "" := by
  split
  · exact hd
  · assumption

theorem parseMediaInfo_nonempty (title artist appName : String) :
    (parseMediaInfo title artist appName).title ≠ "" ∧
    (parseMediaInfo title artist appName).artist ≠ "" := by
  by_cases hcond : (isYouTubeApp appName && decide (title ≠ "") && decide (artist ≠ "")) = true
  · have hartist : artist ≠ "" := of_decide_eq_true (Bool.and_eq_true _ _ |>.mp hcond).2
    unfold parseMediaInfo
    rw [if_pos hcond]
    dsimp only
    refine ⟨strIte_ne_empty _ _ (by decide), ?_⟩
    split
    · rename_i v heq
      split at heq
      · cases heq
      · injection heq with heq'
        exact heq' ▸ hartist
    · decide
  · unfold parseMediaInfo
    rw [if_neg hcond]
    dsimp only
    exact ⟨strIte_ne_empty _ _ (by decide), strIte_ne_empty _ _ (by decide)⟩

/-- C10: every `MediaSession` returned by `getCurrentMediaSession` has a
non-empty title and artist — `parseMediaInfo` substitutes the "Unknown …"
placeholders whenever the underlying value is empty. -/
theorem C10_displayed_fields_nonempty (r : ExecResult) (ms : MediaSession)
    (h : getCurrentMediaSessionE r = .ok (some ms)) :
    ms.title ≠ "" ∧ ms.artist ≠ "" := by
  cases r with
  | fails => simp [getCurrentMediaSessionE, detectPipeline] at h
  | ok env =>
    simp only [getCurrentMediaSessionE, detectPipeline] at h
    injection h with h'
    obtain ⟨si, _, hmk⟩ := Option.map_eq_some'.mp h'
    have hp := parseMediaInfo_nonempty si.Title si.Artist si.AppName
    rw [← hmk]
    simpa [mkMediaSession] using hp

/-- Witness for `C10_displayed_fields_nonempty` on a concrete discovery. -/
theorem C10_displayed_fields_nonempty_witness :
    (mkMediaSession ⟨"Song", "Spotify", none, "Spotify.exe", true, true, true, true, true⟩).title ≠ "" ∧
    (mkMediaSession ⟨"Song", "Spotify", none, "Spotify.exe", true, true, true, true, true⟩).artist ≠ "" :=
  C10_displayed_fields_nonempty
    (.ok ⟨true, [⟨"Spotify.exe", "Song", "Spotify", "", true, false⟩], [], none⟩) _ rfl


/-! ## Lemmas about the bracketed video-id extraction -/

theorem tryBracketHere_eq (l tok suf : List Char) (h : tryBracketHere l = some (tok, suf)) :
    l = '[' :: (tok ++ (']' :: suf)) ∧ tok.length = 11 ∧ tok.all isTokChar = true := by
  unfold tryBracketHere at h
  dsimp only at h
  split at h
  · rename_i hcond
    obtain ⟨h1, h2, h3, h4⟩ := hcond
    injection h with h'
    injection h' with ha hb
    refine ⟨?_, ha ▸ h2, ha ▸ h3⟩
    have e2 : (l.drop 1).take 11 ++ (l.drop 1).drop 11 = l.drop 1 :=
      List.take_append_drop 11 (l.drop 1)
    have e3 : (l.drop 1).drop 11 = l.drop 12 := by
      rw [List.drop_drop]
    have e4 : (l.drop 12).take 1 ++ (l.drop 12).drop 1 = l.drop 12 :=
      List.take_append_drop 1 (l.drop 12)
    have e5 : (l.drop 12).drop 1 = l.drop 13 := by
      rw [List.drop_drop]
    calc l = l.take 1 ++ l.drop 1 := (List.take_append_drop 1 l).symm
    _ = ['['] ++ ((l.drop 1).take 11 ++ (l.drop 1).drop 11) := by rw [h1, e2]
    _ = ['['] ++ (tok ++ l.drop 12) := by rw [ha, e3]
    _ = ['['] ++ (tok ++ ((l.drop 12).take 1 ++ (l.drop 12).drop 1)) := by rw [e4]
    _ = ['['] ++ (tok ++ ([']'] ++ suf)) := by rw [h4, e5, hb]
    _ = '[' :: (tok ++ (']' :: suf)) := by simp
  · cases h

theorem tryBracketHere_of_append (tok suf : List Char) (hlen : tok.length = 11)
    (hall : tok.all isTokChar = true) :
    tryBracketHere ('[' :: (tok ++ (']' :: suf))) = some (tok, suf) := by
  have hd1 : ('[' :: (tok ++ (']' :: suf))).drop 1 = tok ++ (']' :: suf) := rfl
  have ht : (tok ++ (']' :: suf)).take 11 = tok := by
    rw [← hlen]; exact List.take_left _ _
  have hd12 : ('[' :: (tok ++ (']' :: suf))).drop 12 = ']' :: suf := by
    show (tok ++ (']' :: suf)).drop 11 = ']' :: suf
    rw [← hlen]; exact List.drop_left _ _
  have hd13 : ('[' :: (tok ++ (']' :: suf))).drop 13 = suf := by
    show (tok ++ (']' :: suf)).drop 12 = suf
    have e : (tok ++ (']' :: suf)).drop 12 = ((tok ++ (']' :: suf)).drop 11).drop 1 := by
      rw [List.drop_drop]
    rw [e, ← hlen, List.drop_left]
    rfl
  unfold tryBracketHere
  dsimp only
  rw [hd1, ht, hd12, hd13]
  rw [if_pos ⟨rfl, hlen, hall, rfl⟩]

theorem scanBracketTok_eq : ∀ l pre tok suf, scanBracketTok l = some (pre, tok, suf) →
    l = pre ++ '[' :: (tok ++ (']' :: suf)) ∧ tok.length = 11 ∧ tok.all isTokChar = true := by
  intro l
  induction l with
  | nil => intro pre tok suf h; cases h
  | cons c rest ih =>
    intro pre tok suf h
    simp only [scanBracketTok] at h
    split at h
    · rename_i tok' suf' heq
      injection h with h'
      injection h' with h1 h23
      injection h23 with h2 h3
      obtain ⟨hl, hlen, hall⟩ := tryBracketHere_eq _ _ _ heq
      rw [← h1, ← h2, ← h3]
      exact ⟨by simpa using hl, hlen, hall⟩
    · rename_i hnone
      split at h
      · rename_i pre' tok' suf' heq2
        injection h with h'
        injection h' with h1 h23
        injection h23 with h2 h3
        obtain ⟨hl, hlen, hall⟩ := ih _ _ _ heq2
        rw [← h1, ← h2, ← h3]
        refine ⟨?_, hlen, hall⟩
        rw [List.cons_append, ← hl]
      · cases h

theorem removeFirstL_append_self (pat x : List Char) (hp : pat ≠ []) :
    removeFirstL pat (pat ++ x) = x := by
  cases pat with
  | nil => exact absurd rfl hp
  | cons p ps =>
    have hpre : (p :: ps).isPrefixOf ((p :: ps) ++ x) = true :=
      List.isPrefixOf_iff_prefix.mpr (List.prefix_append _ _)
    have e : removeFirstL (p :: ps) ((p :: ps) ++ x) =
        removeFirstL (p :: ps) (p :: (ps ++ x)) := by rw [List.cons_append]
    rw [e]
    simp only [removeFirstL]
    rw [← List.cons_append]
    rw [if_pos hpre]
    exact List.drop_left _ _

theorem removeFirstL_scanBracketTok : ∀ l pre tok suf,
    scanBracketTok l = some (pre, tok, suf) →
    removeFirstL ('[' :: (tok ++ [']'])) l = pre ++ suf := by
  intro l
  induction l with
  | nil => intro pre tok suf h; cases h
  | cons c rest ih =>
    intro pre tok suf h
    simp only [scanBracketTok] at h
    split at h
    · rename_i tok' suf' heq
      injection h with h'
      injection h' with h1 h23
      injection h23 with h2 h3
      obtain ⟨hl, _, _⟩ := tryBracketHere_eq _ _ _ heq
      rw [← h1, ← h2, ← h3]
      have hcat : c :: rest = ('[' :: (tok' ++ [']'])) ++ suf' := by
        rw [hl]; simp
      rw [hcat, removeFirstL_append_self _ _ (by simp)]
      simp
    · rename_i hnone
      split at h
      · rename_i pre' tok' suf' heq2
        injection h with h'
        injection h' with h1 h23
        injection h23 with h2 h3
        rw [← h1, ← h2, ← h3]
        obtain ⟨_, hlen, hall⟩ := scanBracketTok_eq _ _ _ _ heq2
        have hnp : ¬(('[' :: (tok' ++ [']'])).isPrefixOf (c :: rest) = true) := by
          intro hcontra
          have hpre : ('[' :: (tok' ++ [']'])) <+: (c :: rest) :=
            List.isPrefixOf_iff_prefix.mp hcontra
          obtain ⟨t, ht⟩ := hpre
          have hsome : tryBracketHere (c :: rest) = some (tok', t) := by
            rw [← ht]
            have e : ('[' :: (tok' ++ [']'])) ++ t = '[' :: (tok' ++ (']' :: t)) := by simp
            rw [e]
            exact tryBracketHere_of_append _ _ hlen hall
          rw [hnone] at hsome
          cases hsome
        simp only [removeFirstL]
        rw [if_neg hnp]
        rw [ih _ _ _ heq2]
        simp
      · cases h

/-- C6 counterexample: the displayed title is NOT exactly the original title
with the bracketed token removed — the code additionally trims: for
"Song [abcdefghijk]" the removal leaves "Song " (trailing space) but
`parseMediaInfo` returns "Song". -/
theorem C6_roundtrip_counterexample :
    (parseMediaInfo "Song [abcdefghijk]" "Chan" "chrome").videoId = some "abcdefghijk" ∧
    (parseMediaInfo "Song [abcdefghijk]" "Chan" "chrome").title = "Song" ∧
    (⟨removeFirstL "[abcdefghijk]".data "Song [abcdefghijk]".data⟩ : String) = "Song " ∧
    ("Song" : String) ≠ "Song " := by decide

/-- C6 amended: for a browser/YouTube-app source with nonempty artist, when
the title contains a bracketed 11-character token (leftmost occurrence
`pre ++ "[" ++ tok ++ "]" ++ suf`), `parseMediaInfo` returns the token as
`videoId` and, as displayed title, the original title with that occurrence
removed and then WHITESPACE-TRIMMED — falling back to "Unknown Video" when
nothing remains after trimming. -/
theorem C6_videoId_extraction_amended (title artist appName : String)
    (pre tok suf : List Char)
    (hscan : scanBracketTok title.data = some (pre, tok, suf))
    (hyt : isYouTubeApp appName = true)
    (hartist : artist ≠ "") :
    (parseMediaInfo title artist appName).videoId = some ⟨tok⟩ ∧
    (parseMediaInfo title artist appName).title =
      (if trimS ⟨pre ++ suf⟩ = "" then "Unknown Video" else trimS ⟨pre ++ suf⟩) := by
  have htitle : title ≠ "" := by
    intro he
    rw [he] at hscan
    cases hscan
  have hcond : (isYouTubeApp appName && decide (title ≠ "") && decide (artist ≠ "")) = true := by
    simp [hyt, htitle, hartist]
  unfold parseMediaInfo
  rw [if_pos hcond]
  dsimp only
  rw [hscan]
  dsimp only
  rw [removeFirstL_scanBracketTok _ _ _ _ hscan]
  exact ⟨rfl, rfl⟩

/-- Witness for `C6_videoId_extraction_amended` at a concrete title. -/
theorem C6_videoId_extraction_amended_witness :
    (parseMediaInfo "Song [abcdefghijk]" "Chan" "chrome").videoId = some ⟨"abcdefghijk".data⟩ ∧
    (parseMediaInfo "Song [abcdefghijk]" "Chan" "chrome").title =
      (if trimS ⟨"Song ".data ++ ([] : List Char)⟩ = "" then "Unknown Video"
       else trimS ⟨"Song ".data ++ ([] : List Char)⟩) :=
  C6_videoId_extraction_amended "Song [abcdefghijk]" "Chan" "chrome"
    "Song ".data "abcdefghijk".data [] (by decide) (by decide) (by decide)
